import Mathlib

/-
Verification of the telegraf "ora" input plugin (ora.go).

The Go source is shallowly embedded below.  Go standard-library helpers
(strings.Split, strings.TrimSpace, strings.ToLower, strings.HasPrefix,
strconv.ParseFloat, fmt.Sprintf) are modelled as executable Lean functions
over the character lists of strings, structurally recursive so that the
kernel can evaluate them.  Maps (map[string]string, map[string][]string,
map[string]interface{}) are modelled as association lists in which
assignment overwrites the existing binding in place (or appends a fresh
binding at the end), which reproduces Go map lookup semantics; the list
order stands for one arbitrary iteration order of the Go map.
-/

namespace OraGo

/-- Model of Go strings.Split for a one-character separator, on char lists.
Implemented as a right fold: a separator character closes the current part. -/
def splitChar (sep : Char) (cs : List Char) : List (List Char) :=
  cs.foldr
    (fun c acc =>
      match acc with
      | p :: ps => if c = sep then [] :: p :: ps else (c :: p) :: ps
      | [] => [[]])
    [[]]

/-- Model of Go strings.Split for a two-character separator whose two
characters are equal (the program only ever splits on ";;" and "::").
Scans left to right, consuming non-overlapping occurrences, exactly as
strings.Split does. -/
def splitDouble (sep : Char) : List Char → List (List Char)
  | [] => [[]]
  | [c] => [[c]]
  | c1 :: c2 :: rest =>
    if c1 = sep ∧ c2 = sep then
      [] :: splitDouble sep rest
    else
      match splitDouble sep (c2 :: rest) with
      | p :: ps => (c1 :: p) :: ps
      | [] => [[c1]]

/-- strings.Split(s, sep) for the single-character separators the program
uses: "@", "/" and ":". -/
def goSplit1 (sep : Char) (s : String) : List String :=
  (splitChar sep s.data).map (fun l => ⟨l⟩)

/-- strings.Split(s, sep) for the doubled separators the program uses:
";;" (sep = ';') and "::" (sep = ':'). -/
def goSplit2 (sep : Char) (s : String) : List String :=
  (splitDouble sep s.data).map (fun l => ⟨l⟩)

/-- The ASCII whitespace class of Go unicode.IsSpace (the inputs in scope
are ASCII SQL text): space, tab, newline, vertical tab, form feed,
carriage return. -/
def isSpaceGo (c : Char) : Bool :=
  c = ' ' || c = '\t' || c = '\n' || c = '\x0b' || c = '\x0c' || c = '\r'

/-- Model of Go strings.TrimSpace: drop leading and trailing whitespace. -/
def trimGo (s : String) : String :=
  ⟨((s.data.dropWhile isSpaceGo).reverse.dropWhile isSpaceGo).reverse⟩

/-- Model of Go strings.ToLower (ASCII case mapping). -/
def toLowerGo (s : String) : String :=
  ⟨s.data.map Char.toLower⟩

/-- Model of Go strings.HasPrefix. -/
def hasPrefixGo (s pre : String) : Bool :=
  pre.data.isPrefixOf s.data

/-- Decimal digits to a natural number. -/
def digitsToNat (l : List Char) : Nat :=
  l.foldl (fun a c => a * 10 + (c.toNat - '0'.toNat)) 0

/-- Model of Go strconv.ParseFloat on the plain decimal strings produced by
ora.OCINum.String(): optional sign, integer digits, optional fraction.
Returns none exactly when Go ParseFloat returns a syntax error; in that
case Go additionally returns the float value 0, which the caller below
reproduces with Option.getD. -/
def parseFloatQ (s : String) : Option ℚ :=
  let cs := s.data
  let signBody : Bool × List Char :=
    match cs with
    | '-' :: t => (true, t)
    | '+' :: t => (false, t)
    | t => (false, t)
  let ip := signBody.2.takeWhile Char.isDigit
  let rest := signBody.2.dropWhile Char.isDigit
  let q : Option ℚ :=
    match rest with
    | [] => if ip.isEmpty then none else some ((digitsToNat ip : ℚ))
    | '.' :: fp =>
      if fp.all Char.isDigit && !(ip.isEmpty && fp.isEmpty) then
        some ((digitsToNat ip : ℚ) + (digitsToNat fp : ℚ) / ((10 : ℚ) ^ fp.length))
      else none
    | _ => none
  q.map (fun v => if signBody.1 then -v else v)

/-- Go fmt.Sprintf "%b" applied to a bool value: %b is not a valid verb
for bool, so the fmt package emits the bad-verb diagnostic string
%!b(bool=true) / %!b(bool=false). -/
def sprintfPercentB (b : Bool) : String :=
  if b then "%!b(bool=true)" else "%!b(bool=false)"

/-- Go map assignment m[k] = v on an association-list model: overwrite the
existing binding for k in place, or append a new binding at the end. -/
def mapSet {α : Type} : List (String × α) → String → α → List (String × α)
  | [], k, v => [(k, v)]
  | kv0 :: rest, k, v =>
    if kv0.1 = k then (k, v) :: rest else kv0 :: mapSet rest k v

/-- The url struct of ora.go (the Go field "instance" is spelled "inst"
here because instance is a Lean keyword). -/
structure url where
  all : String
  user : String
  passwd : String
  host : String
  port : String
  service : String
  inst : String
deriving DecidableEq, Repr

/-- A url whose identity fields are all empty. -/
def uEmpty : url :=
  { all := "", user := "", passwd := "", host := "", port := "", service := "", inst := "" }

/-- The active identity parser tagUrl of ora.go: split on "@" expecting 2
parts, the first on "/" expecting 2 parts (user, passwd), the second on
":" expecting 2 parts (host, remainder), the remainder on "/" expecting 3
parts (port, service, instance).  The Go code calls log.Fatalf when a
split has the wrong part count, which terminates the process; that fatal
outcome is modelled as none. -/
def tagUrl (s : String) : Option url :=
  match goSplit1 '@' s with
  | [p0, p1] =>
    match goSplit1 '/' p0 with
    | [user, passwd] =>
      match goSplit1 ':' p1 with
      | [host, rem] =>
        match goSplit1 '/' rem with
        | [port, service, inst] =>
          some { all := s, user := user, passwd := passwd, host := host,
                 port := port, service := service, inst := inst }
        | _ => none
      | _ => none
    | _ => none
  | _ => none

/-- Formalisation of the split-shape condition stated by the spec for
tagUrl: every positional split yields the expected part count. -/
def tagUrlSplitsOk (s : String) : Bool :=
  match goSplit1 '@' s with
  | [p0, p1] =>
    (match goSplit1 '/' p0 with
     | [_, _] => true
     | _ => false) &&
    (match goSplit1 ':' p1 with
     | [_, rem] =>
       (match goSplit1 '/' rem with
        | [_, _, _] => true
        | _ => false)
     | _ => false)
  | _ => false

/-- The dynamic value of one scanned column, mirroring the runtime types
the type switch of parseRow distinguishes.  bytes carries the []byte
column already decoded to text (Go string(val)); ociNum carries the
decimal rendering val.String() of the driver's ora.OCINum; null is the
nil interface value produced when the database returns NULL; other stands
for any runtime type the switch does not support. -/
inductive GoValue where
  | str (s : String)
  | bytes (s : String)
  | int64 (n : Int)
  | int32 (n : Int)
  | int (n : Int)
  | float32 (q : ℚ)
  | float64 (q : ℚ)
  | ociNum (s : String)
  | bool (b : Bool)
  | null
  | other (ty : String)
deriving DecidableEq, Repr

/-- A value stored in the field map; the Go code stores the dynamically
typed value itself, so the numeric type is preserved. -/
inductive FieldVal where
  | int64 (n : Int)
  | int32 (n : Int)
  | int (n : Int)
  | float32 (q : ℚ)
  | float64 (q : ℚ)
deriving DecidableEq, Repr

/-- The (tags, fields) pair parseRow builds for one row.  The err return
of the Go parseRow is declared but never assigned, so it is always nil
and is not modelled. -/
structure RowOut where
  tags : List (String × String)
  fields : List (String × FieldVal)
deriving DecidableEq, Repr

/-- One conditional identity-tag assignment of parseRow:
if len(x) > 0 then tags[key] = x. -/
def stampOne (b : Bool) (key val : String) (t : List (String × String)) :
    List (String × String) :=
  if b then mapSet t key val else t

/-- The identity-tag block at the bottom of parseRow's column loop: stamp
orahost, oraport, oraservice, orainstance in that order, each only when
the corresponding url field is non-empty. -/
def stampUrlTags (u : url) (t : List (String × String)) : List (String × String) :=
  stampOne (u.inst.length != 0) "orainstance" u.inst
    (stampOne (u.service.length != 0) "oraservice" u.service
      (stampOne (u.port.length != 0) "oraport" u.port
        (stampOne (u.host.length != 0) "orahost" u.host t)))

/-- The identity tag keys parseRow can stamp. -/
def idTagKeys : List String :=
  ["orahost", "oraport", "oraservice", "orainstance"]

/-- The type switch of parseRow for one column with lower-cased name k:
strings tag (empty becomes "NULL"), bytes tag, numerics field, OCINum
field via ParseFloat with the error discarded (so the value 0 is stored
on a syntax error), bool tag via Sprintf %b, anything else only logged. -/
def classifyColumn (k : String) (gv : GoValue) (acc : RowOut) : RowOut :=
  match gv with
  | .str s => { acc with tags := mapSet acc.tags k (if s = "" then "NULL" else s) }
  | .bytes s => { acc with tags := mapSet acc.tags k s }
  | .int64 n => { acc with fields := mapSet acc.fields k (.int64 n) }
  | .int32 n => { acc with fields := mapSet acc.fields k (.int32 n) }
  | .int n => { acc with fields := mapSet acc.fields k (.int n) }
  | .float32 q => { acc with fields := mapSet acc.fields k (.float32 q) }
  | .float64 q => { acc with fields := mapSet acc.fields k (.float64 q) }
  | .ociNum s => { acc with fields := mapSet acc.fields k (.float64 ((parseFloatQ s).getD 0)) }
  | .bool b => { acc with tags := mapSet acc.tags k (sprintfPercentB b) }
  | .null => acc
  | .other _ => acc

/-- One iteration of parseRow's range loop over rowData.  The entry's
second component models the *interface{} pointer: none is a nil pointer
(the continue branch), some gv a non-nil pointer to the scanned value gv.
After the type switch the identity tags are stamped unconditionally. -/
def parseRowStep (u : url) (acc : RowOut) (e : String × Option GoValue) : RowOut :=
  match e.2 with
  | none => acc
  | some gv =>
    let acc1 := classifyColumn (toLowerGo e.1) gv acc
    { acc1 with tags := stampUrlTags u acc1.tags }

/-- parseRow of ora.go: fold the column loop over one iteration order of
the rowData map, starting from empty tag and field maps. -/
def parseRow (u : url) (row : List (String × Option GoValue)) : RowOut :=
  row.foldl (parseRowStep u) { tags := [], fields := [] }

/-- The rowData map as gatherInfo builds it: one fresh non-nil pointer
(new(interface{})) per column name, holding the scanned value. -/
def mkRowData (cols : List String) (vals : List GoValue) :
    List (String × Option GoValue) :=
  (cols.zip vals).map (fun cv => (cv.1, some cv.2))

/-- One metric emitted to the accumulator by acc.AddFields. -/
structure Metric where
  measurement : String
  fields : List (String × FieldVal)
  tags : List (String × String)
deriving DecidableEq, Repr

/-- The database's answer to one statement: a query-submission error, or
a column list together with the rows, each row either a scan error or the
scanned values. -/
inductive DbResult where
  | err (msg : String)
  | table (cols : List String) (rows : List (Except String (List GoValue)))

/-- The row loop of gatherInfo: emit one metric per row (tagged with
func=tag), aborting the remaining rows at the first scan error.  The
parseRow error branch of the Go code is dead (parseRow's err is always
nil). -/
def gatherRows (u : url) (tag : String) (cols : List String) :
    List (Except String (List GoValue)) → List Metric × Option String
  | [] => ([], none)
  | .error e :: _ =>
    ([], some ("ora gatherInfo host=" ++ u.host ++ " instance=" ++ u.inst ++
      " tag=" ++ tag ++ " Scan error , " ++ e))
  | .ok vals :: rest =>
    let r := parseRow u (mkRowData cols vals)
    let m : Metric := { measurement := "ora", fields := r.fields,
                        tags := mapSet r.tags "func" tag }
    let rec0 := gatherRows u tag cols rest
    (m :: rec0.1, rec0.2)

/-- gatherInfo of ora.go over an opaque database model db. -/
def gatherInfo (u : url) (db : String → DbResult) (tag sta : String) :
    List Metric × Option String :=
  match db sta with
  | .err e =>
    ([], some ("ora gatherInfo host=" ++ u.host ++ " instance=" ++ u.inst ++
      " tag=" ++ tag ++ " error , " ++ e))
  | .table cols rows => gatherRows u tag cols rows

/-- The statement catalog o.sqlmap (map[string][]string), modelled as an
association list; the list order stands for one iteration order of the
Go map, while the per-key body lists carry the append order. -/
abbrev Catalog := List (String × List String)

/-- o.sqlmap[k] = append(o.sqlmap[k], v): extend the body list of k, or
create the entry. -/
def catInsert : Catalog → String → String → Catalog
  | [], k, v => [(k, [v])]
  | e :: rest, k, v =>
    if e.1 = k then (k, e.2 ++ [v]) :: rest else e :: catInsert rest k v

/-- Map lookup with the Go zero value [] for an absent key. -/
def catLookup : Catalog → String → List String
  | [], _ => []
  | e :: rest, k => if e.1 = k then e.2 else catLookup rest k

/-- The comment-entry pass of readfiles: delete every catalog entry whose
name begins with the marker. -/
def catDeleteHash (m : Catalog) : Catalog :=
  m.filter (fun e => !(hasPrefixGo e.1 "#"))

/-- One record of a statement file, as readfiles handles it: skip it when
whitespace-only, when it does not split into exactly two parts on "::",
or when the trimmed name or trimmed body is empty; otherwise return the
trimmed (name, body). -/
def recParse (r : String) : Option (String × String) :=
  if trimGo r = "" then none
  else
    match goSplit2 ':' r with
    | [f0, f1] =>
      if trimGo f0 = "" ∨ trimGo f1 = "" then none
      else some (trimGo f0, trimGo f1)
    | _ => none

/-- Process one record: append it to the catalog when recParse accepts it. -/
def processRecord (m : Catalog) (r : String) : Catalog :=
  match recParse r with
  | some kv => catInsert m kv.1 kv.2
  | none => m

/-- Process one readable file's content: split on ";;" and fold the
records into the catalog. -/
def processFile (m : Catalog) (content : String) : Catalog :=
  (goSplit2 ';' content).foldl processRecord m

/-- The file loop of readfiles: a read failure sends its error to the
error channel and continues with the next file; a readable file's
content is parsed into the shared catalog. -/
def readfilesGo : Catalog → List (Option String) → List (Except String String) →
    Catalog × List (Option String)
  | m, sent, [] => (m, sent)
  | m, sent, .error e :: rest => readfilesGo m (sent ++ [some e]) rest
  | m, sent, .ok c :: rest => readfilesGo (processFile m c) sent rest

/-- Model of errchan.Error(): drain the sent outcomes and combine the
non-nil ones into a single error (represented as the list of their
messages), or nil when none were errors. -/
def errchanError (sent : List (Option String)) : Option (List String) :=
  let errs := sent.filterMap id
  if errs.isEmpty then none else some errs

/-- readfiles of ora.go, acting on the sqlmap state init it was entered
with.  The files argument carries the ioutil.ReadFile outcome for each
configured path, in order.  After all files, entries whose name begins
with "#" are deleted; the combined error of the per-file read failures is
returned. -/
def readfiles (init : Catalog) (files : List (Except String String)) :
    Catalog × Option (List String) :=
  let r := readfilesGo init [] files
  (catDeleteHash r.1, errchanError r.2)

/-- The read errors of a file list, in order. -/
def fileErrs (files : List (Except String String)) : List String :=
  files.filterMap (fun f => match f with | .error e => some e | .ok _ => none)

/-- The contents of the readable files, in order. -/
def okContents (files : List (Except String String)) : List String :=
  files.filterMap (fun f => match f with | .ok c => some c | .error _ => none)

/-- The catalog-loading prelude of Gather: o.sqlmap = make(map[string][]string)
discards the map left by the previous invocation, then readfiles fills
the fresh map. -/
def gatherLoad (_sqlmap0 : Catalog) (files : List (Except String String)) :
    Catalog × Option (List String) :=
  readfiles [] files

/-- The statement instances of a catalog, in the order of the nested
range loops of Gather (for tag, ss := range o.sqlmap, for _, s := range ss). -/
def instancesOf (cat : Catalog) : List (String × String) :=
  (cat.map (fun e => e.2.map (fun s => (e.1, s)))).flatten

/-- The observable outcome of one Gather invocation: the returned error
(nil or the combined failures), every metric added to the accumulator,
the statement instances that were run, and the up-front count ln used to
size the error channel. -/
structure GatherOut where
  retErr : Option (List String)
  emitted : List Metric
  executed : List (String × String)
  ln : Nat
deriving DecidableEq, Repr

/-- Gather of ora.go.  run tag s stands for the body of the goroutine
spawned for the statement instance (tag, s): the metrics it adds to the
accumulator while executing, and the single outcome it sends to the
error channel (nil, a gatherInfo error, or the timeout error chosen by
the select).  sql.Open with a registered driver name does not fail before
use and is not modelled.  A fatal tagUrl (log.Fatalf terminates the
process) is returned as Except.error. -/
def Gather (sqlmap0 : Catalog) (files : List (Except String String)) (urlStr : String)
    (run : String → String → List Metric × Option String) :
    Except String GatherOut :=
  let lr := gatherLoad sqlmap0 files
  match lr.2 with
  | some errs =>
    Except.ok { retErr := some errs, emitted := [], executed := [], ln := 0 }
  | none =>
    match tagUrl urlStr with
    | none => Except.error ("tagUrl url=" ++ urlStr ++ " config error")
    | some _u =>
      let cat := lr.1
      let ln := cat.foldl (fun a e => a + e.2.length) 0
      let insts := instancesOf cat
      let results := insts.map (fun i => run i.1 i.2)
      Except.ok { retErr := errchanError (results.map (fun r => r.2)),
                  emitted := (results.map (fun r => r.1)).flatten,
                  executed := insts,
                  ln := ln }

/-- The failure messages collected for one invocation: the non-nil
outcomes of the statement instances, in instance order. -/
def failuresOf (cat : Catalog)
    (run : String → String → List Metric × Option String) : List String :=
  (((instancesOf cat).map (fun i => run i.1 i.2)).map (fun r => r.2)).filterMap id

/- ===== supporting lemmas ===== -/

lemma mem_mapSet {α : Type} {m : List (String × α)} {k : String} {v : α}
    {kv : String × α} (h : kv ∈ mapSet m k v) : kv = (k, v) ∨ kv ∈ m := by
  induction m with
  | nil => simpa [mapSet] using h
  | cons kv0 rest ih =>
    unfold mapSet at h
    split at h
    · rcases List.mem_cons.1 h with h1 | h1
      · exact Or.inl h1
      · exact Or.inr (List.mem_cons_of_mem _ h1)
    · rcases List.mem_cons.1 h with h1 | h1
      · exact Or.inr (h1 ▸ List.mem_cons_self _ _)
      · rcases ih h1 with h2 | h2
        · exact Or.inl h2
        · exact Or.inr (List.mem_cons_of_mem _ h2)

lemma mem_stampOne {b : Bool} {key val : String} {t : List (String × String)}
    {kv : String × String} (h : kv ∈ stampOne b key val t) :
    kv.1 = key ∨ kv ∈ t := by
  unfold stampOne at h
  split at h
  · rcases mem_mapSet h with h1 | h1
    · exact Or.inl (by rw [h1])
    · exact Or.inr h1
  · exact Or.inr h

lemma mem_stampUrlTags {u : url} {t : List (String × String)}
    {kv : String × String} (h : kv ∈ stampUrlTags u t) :
    kv ∈ t ∨ kv.1 ∈ idTagKeys := by
  unfold stampUrlTags at h
  rcases mem_stampOne h with h1 | h1
  · exact Or.inr (by simp [idTagKeys, h1])
  rcases mem_stampOne h1 with h2 | h2
  · exact Or.inr (by simp [idTagKeys, h2])
  rcases mem_stampOne h2 with h3 | h3
  · exact Or.inr (by simp [idTagKeys, h3])
  rcases mem_stampOne h3 with h4 | h4
  · exact Or.inr (by simp [idTagKeys, h4])
  · exact Or.inl h4

lemma fields_stamp (u : url) (acc : RowOut) :
    ({ acc with tags := stampUrlTags u acc.tags } : RowOut).fields = acc.fields := rfl

lemma fields_classifyColumn {k : String} {gv : GoValue} {acc : RowOut}
    {kv : String × FieldVal} (h : kv ∈ (classifyColumn k gv acc).fields) :
    kv ∈ acc.fields ∨ kv.1 = k := by
  cases gv <;> simp only [classifyColumn] at h
  case str => exact Or.inl h
  case bytes => exact Or.inl h
  case bool => exact Or.inl h
  case null => exact Or.inl h
  case other => exact Or.inl h
  all_goals
    rcases mem_mapSet h with h1 | h1
    · exact Or.inr (by rw [h1])
    · exact Or.inl h1

lemma tags_classifyColumn {k : String} {gv : GoValue} {acc : RowOut}
    {kv : String × String} (h : kv ∈ (classifyColumn k gv acc).tags) :
    kv ∈ acc.tags ∨ kv.1 = k := by
  cases gv <;> simp only [classifyColumn] at h
  case int64 => exact Or.inl h
  case int32 => exact Or.inl h
  case int => exact Or.inl h
  case float32 => exact Or.inl h
  case float64 => exact Or.inl h
  case ociNum => exact Or.inl h
  case null => exact Or.inl h
  case other => exact Or.inl h
  all_goals
    rcases mem_mapSet h with h1 | h1
    · exact Or.inr (by rw [h1])
    · exact Or.inl h1

lemma fields_parseRowStep {u : url} {acc : RowOut} {e : String × Option GoValue}
    {kv : String × FieldVal} (h : kv ∈ (parseRowStep u acc e).fields) :
    kv ∈ acc.fields ∨ kv.1 = toLowerGo e.1 := by
  unfold parseRowStep at h
  cases hv : e.2 with
  | none => rw [hv] at h; exact Or.inl h
  | some gv =>
    rw [hv] at h
    exact fields_classifyColumn h

lemma tags_parseRowStep {u : url} {acc : RowOut} {e : String × Option GoValue}
    {kv : String × String} (h : kv ∈ (parseRowStep u acc e).tags) :
    kv ∈ acc.tags ∨ kv.1 = toLowerGo e.1 ∨ kv.1 ∈ idTagKeys := by
  unfold parseRowStep at h
  cases hv : e.2 with
  | none => rw [hv] at h; exact Or.inl h
  | some gv =>
    rw [hv] at h
    rcases mem_stampUrlTags h with h1 | h1
    · rcases tags_classifyColumn h1 with h2 | h2
      · exact Or.inl h2
      · exact Or.inr (Or.inl h2)
    · exact Or.inr (Or.inr h1)

lemma fields_parseRow_aux (u : url) :
    ∀ (row : List (String × Option GoValue)) (acc : RowOut) (kv : String × FieldVal),
      kv ∈ (row.foldl (parseRowStep u) acc).fields →
      kv ∈ acc.fields ∨ ∃ c ∈ row, kv.1 = toLowerGo c.1 := by
  intro row
  induction row with
  | nil => exact fun acc kv h => Or.inl h
  | cons e t ih =>
    intro acc kv h
    rcases ih (parseRowStep u acc e) kv h with h1 | ⟨c, hc, hk⟩
    · rcases fields_parseRowStep h1 with h2 | h2
      · exact Or.inl h2
      · exact Or.inr ⟨e, List.mem_cons_self _ _, h2⟩
    · exact Or.inr ⟨c, List.mem_cons_of_mem _ hc, hk⟩

lemma tags_parseRow_aux (u : url) :
    ∀ (row : List (String × Option GoValue)) (acc : RowOut) (kv : String × String),
      kv ∈ (row.foldl (parseRowStep u) acc).tags →
      kv ∈ acc.tags ∨ (∃ c ∈ row, kv.1 = toLowerGo c.1) ∨ kv.1 ∈ idTagKeys := by
  intro row
  induction row with
  | nil => exact fun acc kv h => Or.inl h
  | cons e t ih =>
    intro acc kv h
    rcases ih (parseRowStep u acc e) kv h with h1 | h1
    · rcases tags_parseRowStep h1 with h2 | h2 | h2
      · exact Or.inl h2
      · exact Or.inr (Or.inl ⟨e, List.mem_cons_self _ _, h2⟩)
      · exact Or.inr (Or.inr h2)
    · rcases h1 with ⟨c, hc, hk⟩ | h1
      · exact Or.inr (Or.inl ⟨c, List.mem_cons_of_mem _ hc, hk⟩)
      · exact Or.inr (Or.inr h1)

lemma catLookup_catInsert (m : Catalog) (k v n : String) :
    catLookup (catInsert m k v) n =
      if k = n then catLookup m n ++ [v] else catLookup m n := by
  induction m with
  | nil =>
    by_cases h : k = n <;> simp [catInsert, catLookup, h]
  | cons e rest ih =>
    simp only [catInsert]
    by_cases h1 : e.1 = k
    · by_cases h2 : k = n
      · subst h2
        simp [h1, catLookup]
      · have he : ¬(e.1 = n) := fun hq => h2 (h1.symm.trans hq)
        simp [h1, catLookup, h2, he]
    · by_cases h2 : e.1 = n
      · have hk : ¬(k = n) := fun hq => h1 (by rw [hq, h2])
        have hnk : ¬(n = k) := fun hq => hk hq.symm
        simp [h1, catLookup, h2, hk, hnk]
      · simp [h1, catLookup, h2, ih]

lemma catLookup_foldl_catInsert (ps : List (String × String)) :
    ∀ (init : Catalog) (n : String),
      catLookup (ps.foldl (fun m kv => catInsert m kv.1 kv.2) init) n =
        catLookup init n ++ ((ps.filter (fun kv => kv.1 == n)).map (fun kv => kv.2)) := by
  induction ps with
  | nil => intro init n; simp
  | cons kv t ih =>
    intro init n
    simp only [List.foldl_cons, List.filter_cons]
    rw [ih, catLookup_catInsert]
    by_cases h : kv.1 = n
    · simp [h]
    · simp [h]

lemma foldl_processRecord_eq (rs : List String) :
    ∀ init : Catalog,
      rs.foldl processRecord init =
        (rs.filterMap recParse).foldl (fun m kv => catInsert m kv.1 kv.2) init := by
  induction rs with
  | nil => intro init; rfl
  | cons r t ih =>
    intro init
    simp only [List.foldl_cons, List.filterMap_cons]
    cases h : recParse r with
    | none => simp only [processRecord, h]; exact ih init
    | some kv => simp only [processRecord, h, List.foldl_cons]; exact ih _

lemma foldl_processFile_eq (cs : List String) :
    ∀ init : Catalog,
      cs.foldl processFile init =
        ((cs.map (fun c => goSplit2 ';' c)).flatten).foldl processRecord init := by
  induction cs with
  | nil => intro init; rfl
  | cons c t ih =>
    intro init
    simp only [List.foldl_cons, List.map_cons, List.flatten_cons, List.foldl_append]
    exact ih _

lemma readfilesGo_fst (files : List (Except String String)) :
    ∀ (m : Catalog) (sent : List (Option String)),
      (readfilesGo m sent files).1 = (okContents files).foldl processFile m := by
  induction files with
  | nil => intro m sent; rfl
  | cons f rest ih =>
    intro m sent
    cases f with
    | error e =>
      simpa [readfilesGo, okContents, List.filterMap_cons] using ih m (sent ++ [some e])
    | ok c =>
      simpa [readfilesGo, okContents, List.filterMap_cons] using ih (processFile m c) sent

lemma readfilesGo_snd (files : List (Except String String)) :
    ∀ (m : Catalog) (sent : List (Option String)),
      (readfilesGo m sent files).2 = sent ++ (fileErrs files).map some := by
  induction files with
  | nil => intro m sent; simp [readfilesGo, fileErrs]
  | cons f rest ih =>
    intro m sent
    cases f with
    | error e =>
      simp only [readfilesGo, fileErrs, List.filterMap_cons]
      rw [ih]
      simp [fileErrs]
    | ok c =>
      simp only [readfilesGo, fileErrs, List.filterMap_cons]
      rw [ih]
      simp [fileErrs]

lemma filterMap_id_map_some (l : List String) :
    (l.map some).filterMap id = l := by
  induction l with
  | nil => rfl
  | cons a t ih => simp [List.filterMap_cons, ih]

lemma errchanError_map_some (l : List String) :
    errchanError (l.map some) = if l = [] then none else some l := by
  unfold errchanError
  rw [filterMap_id_map_some]
  by_cases h : l = [] <;> simp [h, List.isEmpty_iff]

lemma readfiles_def (init : Catalog) (files : List (Except String String)) :
    readfiles init files =
      (catDeleteHash (readfilesGo init [] files).1,
       errchanError (readfilesGo init [] files).2) := rfl

lemma readfiles_fst (init : Catalog) (files : List (Except String String)) :
    (readfiles init files).1 =
      catDeleteHash ((okContents files).foldl processFile init) := by
  rw [readfiles_def]
  rw [readfilesGo_fst]

lemma readfiles_snd (init : Catalog) (files : List (Except String String)) :
    (readfiles init files).2 =
      if fileErrs files = [] then none else some (fileErrs files) := by
  rw [readfiles_def]
  show errchanError (readfilesGo init [] files).2 = _
  rw [readfilesGo_snd]
  simp only [List.nil_append]
  exact errchanError_map_some _

lemma catLookup_catDeleteHash (m : Catalog) (n : String) :
    catLookup (catDeleteHash m) n =
      if hasPrefixGo n "#" then [] else catLookup m n := by
  induction m with
  | nil => simp [catDeleteHash, catLookup]
  | cons e rest ih =>
    simp only [catDeleteHash, List.filter_cons] at *
    by_cases hp : hasPrefixGo e.1 "#"
    · by_cases hn : e.1 = n
      · subst hn
        simp [hp, catLookup, ih]
      · simp [hp, catLookup, hn, ih]
    · by_cases hn : e.1 = n
      · subst hn
        simp [hp, catLookup, ih]
      · simp [hp, catLookup, hn, ih]

lemma mem_keys_catInsert {m : Catalog} {k v n : String} :
    n ∈ (catInsert m k v).map (fun e => e.1) ↔
      n ∈ m.map (fun e => e.1) ∨ n = k := by
  induction m with
  | nil => simp [catInsert]
  | cons e rest ih =>
    simp only [catInsert]
    by_cases h : e.1 = k
    · rw [if_pos h]
      subst h
      simp only [List.map_cons, List.mem_cons]
      tauto
    · rw [if_neg h]
      simp only [List.map_cons, List.mem_cons]
      rw [ih]
      tauto

lemma mem_keys_foldl (ps : List (String × String)) :
    ∀ (init : Catalog) (n : String),
      n ∈ ((ps.foldl (fun m kv => catInsert m kv.1 kv.2) init).map (fun e => e.1)) ↔
        n ∈ init.map (fun e => e.1) ∨ n ∈ ps.map (fun kv => kv.1) := by
  induction ps with
  | nil => intro init n; simp
  | cons kv t ih =>
    intro init n
    simp only [List.foldl_cons, List.map_cons, List.mem_cons]
    rw [ih, mem_keys_catInsert]
    tauto

lemma mem_keys_catDeleteHash {m : Catalog} {n : String} :
    n ∈ (catDeleteHash m).map (fun e => e.1) ↔
      hasPrefixGo n "#" = false ∧ n ∈ m.map (fun e => e.1) := by
  unfold catDeleteHash
  constructor
  · intro h
    rcases List.mem_map.1 h with ⟨e, he, hn⟩
    rcases List.mem_filter.1 he with ⟨he1, he2⟩
    refine ⟨?_, List.mem_map.2 ⟨e, he1, hn⟩⟩
    have hn1 : e.1 = n := hn
    rw [← hn1]
    simpa using he2
  · rintro ⟨h1, h2⟩
    rcases List.mem_map.1 h2 with ⟨e, he, hn⟩
    refine List.mem_map.2 ⟨e, List.mem_filter.2 ⟨he, ?_⟩, hn⟩
    have hn1 : e.1 = n := hn
    simp [hn1, h1]

/-- All records of a sequence of readable file contents, in order: each
content split on ";;". -/
def fileRecords (contents : List String) : List String :=
  (contents.map (fun c => goSplit2 ';' c)).flatten

/-- The accepted records, i.e. the trimmed (name, body) pairs of the
records that are not whitespace-only, split into exactly two parts on
"::", and have non-empty trimmed name and body. -/
def goodRecords (contents : List String) : List (String × String) :=
  (fileRecords contents).filterMap recParse

/-- Spec-side characterization for the catalog (claim C5): the ordered
sequence of whitespace-trimmed bodies of the accepted records whose
whitespace-trimmed name equals n, preserving multiplicity and order of
appearance. -/
def specBodies (contents : List String) (n : String) : List String :=
  ((goodRecords contents).filter (fun kv => kv.1 == n)).map (fun kv => kv.2)

/-- The catalog readfiles builds from a list of readable file contents. -/
def readfilesCatalog (contents : List String) : Catalog :=
  (readfiles [] (contents.map Except.ok)).1

lemma okContents_map_ok (contents : List String) :
    okContents (contents.map Except.ok) = contents := by
  induction contents with
  | nil => rfl
  | cons c t ih => simp [okContents, List.filterMap_cons] at ih ⊢; exact ih

lemma readfilesCatalog_eq (contents : List String) :
    readfilesCatalog contents =
      catDeleteHash
        ((goodRecords contents).foldl (fun m kv => catInsert m kv.1 kv.2) []) := by
  unfold readfilesCatalog
  rw [readfiles_fst, okContents_map_ok, foldl_processFile_eq, foldl_processRecord_eq]
  rfl

lemma ln_foldl (cat : Catalog) :
    ∀ n0 : Nat, cat.foldl (fun a e => a + e.2.length) n0 = n0 + (instancesOf cat).length := by
  induction cat with
  | nil => intro n0; simp [instancesOf]
  | cons e rest ih =>
    intro n0
    simp only [List.foldl_cons, instancesOf, List.map_cons, List.flatten_cons,
      List.length_append, List.length_map]
    rw [ih]
    simp [instancesOf, Nat.add_assoc]

lemma errchanError_eq (sent : List (Option String)) :
    errchanError sent =
      if sent.filterMap id = [] then none else some (sent.filterMap id) := by
  unfold errchanError
  by_cases h : sent.filterMap id = [] <;> simp [h, List.isEmpty_iff]

lemma filterMap_id_map {α β : Type} (f : α → Option β) (l : List α) :
    (l.map f).filterMap id = l.filterMap f := by
  induction l with
  | nil => rfl
  | cons a t ih => cases h : f a <;> simp [List.filterMap_cons, h, ih]

lemma length_filterMap_isSome {α β : Type} (f : α → Option β) (l : List α) :
    (l.filterMap f).length = (l.filter (fun a => (f a).isSome)).length := by
  induction l with
  | nil => rfl
  | cons a t ih =>
    cases h : f a <;> simp [List.filterMap_cons, List.filter_cons, h, ih]

/- ===== claim theorems ===== -/

/-- C1: for the row {VALUE: int64(42), NAME: "", FLAG: bool(true)} (with
empty identity fields, so no identity tags), parseRow produces
fields{value: 42} and tags{name: "NULL"} as claimed, but the boolean
column is stored as the tag string "%!b(bool=true)" — fmt.Sprintf("%b",
bool) is an invalid-verb diagnostic, not the claimed "1"/"0". -/
theorem parseRow_c1_bool_tag :
    parseRow uEmpty
        [("VALUE", some (GoValue.int64 42)), ("NAME", some (GoValue.str "")),
         ("FLAG", some (GoValue.bool true))] =
      { tags := [("name", "NULL"), ("flag", "%!b(bool=true)")],
        fields := [("value", FieldVal.int64 42)] } ∧
    sprintfPercentB true = "%!b(bool=true)" ∧
    sprintfPercentB false = "%!b(bool=false)" :=
  ⟨rfl, rfl, rfl⟩

/-- C4 counterexample: for an ora.OCINum column whose decimal string
"abc" fails to parse, the column does appear in the field map — with the
value 0 that ParseFloat returns alongside the (discarded) syntax error —
refuting the claim that nothing is stored for the column. -/
theorem parseRow_c4_counterexample :
    parseFloatQ "abc" = none ∧
    (parseRow uEmpty [("N", some (GoValue.ociNum "abc"))]).fields =
      [("n", FieldVal.float64 0)] :=
  ⟨rfl, rfl⟩

/-- C4 (amended): an ora.OCINum column always yields a field under the
lower-cased column name holding the ParseFloat result with the error
discarded; in particular, when the parse fails the stored field value is
0 (and no error is surfaced — parseRow has no error path). -/
theorem parseRow_c4_amended (u : url) (name s : String) :
    (parseRow u [(name, some (GoValue.ociNum s))]).fields =
      [(toLowerGo name, FieldVal.float64 ((parseFloatQ s).getD 0))] ∧
    (parseFloatQ s = none →
      (parseRow u [(name, some (GoValue.ociNum s))]).fields =
        [(toLowerGo name, FieldVal.float64 0)]) := by
  constructor
  · rfl
  · intro h
    have h1 : (parseRow u [(name, some (GoValue.ociNum s))]).fields =
        [(toLowerGo name, FieldVal.float64 ((parseFloatQ s).getD 0))] := rfl
    rw [h1, h]
    rfl

theorem parseRow_c4_amended_witness :
    (parseRow uEmpty [("NUM", some (GoValue.ociNum "abc"))]).fields =
      [(toLowerGo "NUM", FieldVal.float64 0)] :=
  (parseRow_c4_amended uEmpty "NUM" "abc").2 rfl

/-- C3: the active identity parser tagUrl decomposes the example
connection string into the claimed components, and for every input
string it fails fatally (modelled as none) exactly when some positional
split produces an unexpected part count. -/
theorem tagUrl_c3 :
    tagUrl "scott/tiger@10.0.0.5:1521/orcl/orcl1" =
      some { all := "scott/tiger@10.0.0.5:1521/orcl/orcl1", user := "scott",
             passwd := "tiger", host := "10.0.0.5", port := "1521",
             service := "orcl", inst := "orcl1" } ∧
    ∀ s : String, (tagUrl s = none ↔ tagUrlSplitsOk s = false) := by
  constructor
  · rfl
  · intro s
    unfold tagUrl tagUrlSplitsOk
    cases h1 : goSplit1 '@' s with
    | nil => simp [*]
    | cons p0 t1 =>
      cases t1 with
      | nil => simp [*]
      | cons p1 t2 =>
        cases t2 with
        | cons a t3 => simp [*]
        | nil =>
          cases h2 : goSplit1 '/' p0 with
          | nil => simp [*]
          | cons q0 s1 =>
            cases s1 with
            | nil => simp [*]
            | cons q1 s2 =>
              cases s2 with
              | cons b s3 => simp [*]
              | nil =>
                cases h3 : goSplit1 ':' p1 with
                | nil => simp [*]
                | cons r0 w1 =>
                  cases w1 with
                  | nil => simp [*]
                  | cons r1 w2 =>
                    cases w2 with
                    | cons c w3 => simp [*]
                    | nil =>
                      cases h4 : goSplit1 '/' r1 with
                      | nil => simp [*]
                      | cons x0 y1 =>
                        cases y1 with
                        | nil => simp [*]
                        | cons x1 y2 =>
                          cases y2 with
                          | nil => simp [*]
                          | cons x2 y3 =>
                            cases y3 with
                            | nil => simp [*]
                            | cons x3 y4 => simp [*]

/-- C9: every field key of parseRow is the lower-cased name of some
column, and every tag key is either the lower-cased name of some column
or one of the four identity tag keys; two columns whose names differ
only in case collapse onto one key, and which value survives depends on
the (arbitrary) iteration order, as the two concrete orders show. -/
theorem parseRow_c9 :
    (∀ (u : url) (row : List (String × Option GoValue)) (kv : String × FieldVal),
        kv ∈ (parseRow u row).fields → ∃ c ∈ row, kv.1 = toLowerGo c.1) ∧
    (∀ (u : url) (row : List (String × Option GoValue)) (kv : String × String),
        kv ∈ (parseRow u row).tags →
          (∃ c ∈ row, kv.1 = toLowerGo c.1) ∨ kv.1 ∈ idTagKeys) ∧
    (parseRow uEmpty
        [("A", some (GoValue.int64 1)), ("a", some (GoValue.int64 2))]).fields =
      [("a", FieldVal.int64 2)] ∧
    (parseRow uEmpty
        [("a", some (GoValue.int64 2)), ("A", some (GoValue.int64 1))]).fields =
      [("a", FieldVal.int64 1)] := by
  refine ⟨?_, ?_, rfl, rfl⟩
  · intro u row kv h
    rcases fields_parseRow_aux u row { tags := [], fields := [] } kv h with h1 | h1
    · exact absurd h1 (List.not_mem_nil kv)
    · exact h1
  · intro u row kv h
    rcases tags_parseRow_aux u row { tags := [], fields := [] } kv h with h1 | h1
    · exact absurd h1 (List.not_mem_nil kv)
    · exact h1

theorem parseRow_c9_witness :
    ∃ c ∈ [("A", (some (GoValue.int64 1) : Option GoValue)),
           ("a", some (GoValue.int64 2))],
      ("a", FieldVal.int64 2).1 = toLowerGo c.1 :=
  parseRow_c9.1 uEmpty _ ("a", FieldVal.int64 2) (by decide)

/-- C10: every rowData entry gatherInfo builds holds a non-nil pointer
(so the continue branch of parseRow is unreachable on gatherInfo input);
a scanned database NULL (nil interface value) reaches the type switch,
falls to the default branch, and contributes to neither map, while the
identity tags are still stamped during that column's iteration. -/
theorem parseRow_c10 :
    (∀ (cols : List String) (vals : List GoValue) (e : String × Option GoValue),
        e ∈ mkRowData cols vals → e.2 ≠ none) ∧
    (∀ (u : url) (name : String),
        parseRow u [(name, some GoValue.null)] =
          { tags := stampUrlTags u [], fields := [] }) ∧
    (∀ (u : url) (name : String) (kv : String × String),
        kv ∈ (parseRow u [(name, some GoValue.null)]).tags → kv.1 ∈ idTagKeys) := by
  refine ⟨?_, ?_, ?_⟩
  · intro cols vals e he
    rcases List.mem_map.1 he with ⟨cv, _, heq⟩
    rw [← heq]
    simp
  · intro u name
    rfl
  · intro u name kv h
    have h2 : (parseRow u [(name, some GoValue.null)]).tags = stampUrlTags u [] := rfl
    rw [h2] at h
    rcases mem_stampUrlTags h with h1 | h1
    · exact absurd h1 (List.not_mem_nil kv)
    · exact h1

theorem parseRow_c10_witness :
    (("C", (some GoValue.null : Option GoValue)).2 ≠ none) ∧
    parseRow { all := "scott/tiger@10.0.0.5:1521/orcl/orcl1", user := "scott",
               passwd := "tiger", host := "10.0.0.5", port := "1521",
               service := "orcl", inst := "orcl1" } [("C", some GoValue.null)] =
      { tags := [("orahost", "10.0.0.5"), ("oraport", "1521"),
                 ("oraservice", "orcl"), ("orainstance", "orcl1")], fields := [] } := by
  constructor
  · exact parseRow_c10.1 ["C"] [GoValue.null] _ (by decide)
  · rw [parseRow_c10.2.1]
    rfl

lemma mem_keys_iff_bodies (ps : List (String × String)) (n : String) :
    n ∈ ps.map (fun kv => kv.1) ↔
      ((ps.filter (fun kv => kv.1 == n)).map (fun kv => kv.2)) ≠ [] := by
  constructor
  · intro h hc
    rcases List.mem_map.1 h with ⟨kv, hkv, hn⟩
    have hn1 : kv.1 = n := hn
    have hmem : kv.2 ∈ (ps.filter (fun kv => kv.1 == n)).map (fun kv => kv.2) :=
      List.mem_map_of_mem _ (List.mem_filter.2 ⟨hkv, by simp [hn1]⟩)
    rw [hc] at hmem
    exact absurd hmem (List.not_mem_nil _)
  · intro h
    cases hl : ps.filter (fun kv => kv.1 == n) with
    | nil => exact absurd (by rw [hl]; rfl) h
    | cons kv t =>
      have hmem : kv ∈ ps.filter (fun kv => kv.1 == n) := by
        rw [hl]; exact List.mem_cons_self _ _
      rcases List.mem_filter.1 hmem with ⟨h1, h2⟩
      have h3 : kv.1 = n := by simpa using h2
      exact h3 ▸ List.mem_map_of_mem _ h1

/-- C5: the catalog readfiles builds from readable file contents maps
exactly the trimmed names of the accepted records — entries whose name
begins with "#" are deleted wholesale — to the ordered sequences of
trimmed bodies, preserving the multiplicity and order of appearance of
records sharing a name; whitespace-only records, records without exactly
one "::" split and records with empty trimmed name or body contribute
nothing. -/
theorem readfiles_c5 (contents : List String) (n : String) :
    catLookup (readfilesCatalog contents) n =
      (if hasPrefixGo n "#" then [] else specBodies contents n) ∧
    (n ∈ (readfilesCatalog contents).map (fun e => e.1) ↔
      (hasPrefixGo n "#" = false ∧ specBodies contents n ≠ [])) := by
  constructor
  · rw [readfilesCatalog_eq, catLookup_catDeleteHash]
    by_cases h : hasPrefixGo n "#"
    · simp [h]
    · rw [if_neg h, if_neg h, catLookup_foldl_catInsert]
      simp [specBodies]
      rfl
  · rw [readfilesCatalog_eq, mem_keys_catDeleteHash, mem_keys_foldl]
    simp only [List.map_nil, List.not_mem_nil, false_or]
    rw [mem_keys_iff_bodies]
    exact Iff.rfl

theorem readfiles_c5_witness :
    catLookup (readfilesCatalog ["a:: s1 ;;a::s2;;#b::z;;bad;;x::  ;;"]) "a" =
      ["s1", "s2"] := by
  have h := (readfiles_c5 ["a:: s1 ;;a::s2;;#b::z;;bad;;x::  ;;"] "a").1
  rw [h]
  decide

/-- C7: the catalog an invocation works with is a pure function of the
file read results: Gather rebuilds o.sqlmap fresh (the make call), so
the whole invocation outcome is independent of the sqlmap left by any
prior invocation; readfiles itself does depend on the map it starts
from, as the final witness pair shows, so the fresh rebuild is what
provides the independence. -/
theorem gather_c7 :
    (∀ (prev1 prev2 : Catalog) (files : List (Except String String)) (urlStr : String)
        (run : String → String → List Metric × Option String),
      Gather prev1 files urlStr run = Gather prev2 files urlStr run) ∧
    (∀ (prev : Catalog) (files : List (Except String String)),
      gatherLoad prev files = readfiles [] files) ∧
    (∃ (init : Catalog) (files : List (Except String String)),
      (readfiles init files).1 ≠ (readfiles [] files).1) := by
  refine ⟨fun _ _ _ _ _ => rfl, fun _ _ => rfl, ⟨[("a", ["x"])], [], ?_⟩⟩
  decide

/-- Unfolding lemma for Gather. -/
lemma Gather_eq (sqlmap0 : Catalog) (files : List (Except String String))
    (urlStr : String) (run : String → String → List Metric × Option String) :
    Gather sqlmap0 files urlStr run =
      match (readfiles [] files).2 with
      | some errs =>
        Except.ok { retErr := some errs, emitted := [], executed := [], ln := 0 }
      | none =>
        match tagUrl urlStr with
        | none => Except.error ("tagUrl url=" ++ urlStr ++ " config error")
        | some _u =>
          Except.ok
            { retErr := errchanError
                (((instancesOf (readfiles [] files).1).map
                  (fun i => run i.1 i.2)).map (fun r => r.2)),
              emitted := (((instancesOf (readfiles [] files).1).map
                  (fun i => run i.1 i.2)).map (fun r => r.1)).flatten,
              executed := instancesOf (readfiles [] files).1,
              ln := (readfiles [] files).1.foldl (fun a e => a + e.2.length) 0 } := rfl

/-- C2 counterexample: with one unreadable and one readable file, the
loader does assemble the catalog entry of the readable file, but Gather
returns the combined read error immediately: no statement instance is
executed and nothing is emitted, even though the supplied run function
would have emitted a metric. -/
theorem gather_c2_counterexample :
    Gather [] [Except.error "read fail", Except.ok "a::q;;"]
        "scott/tiger@10.0.0.5:1521/orcl/orcl1"
        (fun tag _s =>
          ([{ measurement := "ora", fields := [], tags := [("func", tag)] }], none)) =
      Except.ok { retErr := some ["read fail"], emitted := [], executed := [], ln := 0 } ∧
    (readfiles [] [Except.error "read fail", Except.ok "a::q;;"]).1 = [("a", ["q"])] :=
  ⟨rfl, rfl⟩

/-- C2 (amended): readfiles collects per-file read errors non-fatally and
keeps assembling the catalog from the readable files, but when any file
failed, Gather returns the combined error right after loading and
executes no statement instances (nothing is emitted); the catalog the
loader assembled is exactly the one the readable files alone produce. -/
theorem gather_c2_amended (sqlmap0 : Catalog) (files : List (Except String String))
    (urlStr : String) (run : String → String → List Metric × Option String)
    (h : fileErrs files ≠ []) :
    Gather sqlmap0 files urlStr run =
      Except.ok { retErr := some (fileErrs files), emitted := [], executed := [],
                  ln := 0 } ∧
    (readfiles [] files).1 = (readfiles [] ((okContents files).map Except.ok)).1 := by
  constructor
  · have h2 : (readfiles ([] : Catalog) files).2 = some (fileErrs files) := by
      rw [readfiles_snd]
      simp [h]
    rw [Gather_eq, h2]
  · rw [readfiles_fst, readfiles_fst, okContents_map_ok]

theorem gather_c2_amended_witness :
    Gather [] [Except.error "boom"] "u" (fun _ _ => ([], none)) =
      Except.ok { retErr := some ["boom"], emitted := [], executed := [], ln := 0 } :=
  (gather_c2_amended [] [Except.error "boom"] "u" (fun _ _ => ([], none))
    (by decide)).1

/-- C6: when every file reads successfully and the url parses, Gather
runs every statement instance of the catalog — ln, the up-front sum of
body counts over the catalog entries, equals the number of instances,
sizing the outcome aggregator exactly — returns the combined error
holding exactly the failing instances' messages, one per failing
instance (nil exactly when no instance failed), and every instance's
emitted metrics reach the accumulator regardless of the other
instances' failures. -/
theorem gather_c6 (sqlmap0 : Catalog) (files : List (Except String String))
    (urlStr : String) (run : String → String → List Metric × Option String) (u : url)
    (hfiles : fileErrs files = []) (hurl : tagUrl urlStr = some u) :
    Gather sqlmap0 files urlStr run =
      Except.ok
        { retErr := if failuresOf (readfiles [] files).1 run = [] then none
                    else some (failuresOf (readfiles [] files).1 run),
          emitted := (((instancesOf (readfiles [] files).1).map
              (fun i => run i.1 i.2)).map (fun r => r.1)).flatten,
          executed := instancesOf (readfiles [] files).1,
          ln := (instancesOf (readfiles [] files).1).length } ∧
    (failuresOf (readfiles [] files).1 run).length =
      ((instancesOf (readfiles [] files).1).filter
        (fun i => ((run i.1 i.2).2).isSome)).length ∧
    (failuresOf (readfiles [] files).1 run = [] ↔
      ∀ i ∈ instancesOf (readfiles [] files).1, (run i.1 i.2).2 = none) ∧
    ∀ i ∈ instancesOf (readfiles [] files).1, ∀ m ∈ (run i.1 i.2).1,
      m ∈ (((instancesOf (readfiles [] files).1).map
          (fun i => run i.1 i.2)).map (fun r => r.1)).flatten := by
  have hsnd : (readfiles ([] : Catalog) files).2 = none := by
    rw [readfiles_snd]
    simp [hfiles]
  refine ⟨?_, ?_, ?_, ?_⟩
  · rw [Gather_eq, hsnd, hurl, ln_foldl, errchanError_eq, Nat.zero_add]
    rfl
  · show ((((instancesOf (readfiles [] files).1).map
        (fun i => run i.1 i.2)).map (fun r => r.2)).filterMap id).length = _
    rw [List.map_map, filterMap_id_map, length_filterMap_isSome]
    rfl
  · show (((instancesOf (readfiles [] files).1).map
        (fun i => run i.1 i.2)).map (fun r => r.2)).filterMap id = [] ↔ _
    rw [List.map_map, filterMap_id_map, List.filterMap_eq_nil_iff]
    exact Iff.rfl
  · intro i hi m hm
    exact List.mem_flatten.2
      ⟨(run i.1 i.2).1,
       List.mem_map_of_mem _ (List.mem_map_of_mem _ hi), hm⟩

theorem gather_c6_witness :
    Gather [] [Except.ok "a::q1;;b::q2;;"] "scott/tiger@10.0.0.5:1521/orcl/orcl1"
        (fun tag _s =>
          if tag = "a" then ([], some "boom")
          else ([{ measurement := "ora", fields := [], tags := [("func", "b")] }],
                none)) =
      Except.ok
        { retErr := some ["boom"],
          emitted := [{ measurement := "ora", fields := [], tags := [("func", "b")] }],
          executed := [("a", "q1"), ("b", "q2")], ln := 2 } := by
  have h := (gather_c6 [] [Except.ok "a::q1;;b::q2;;"]
      "scott/tiger@10.0.0.5:1521/orcl/orcl1"
      (fun tag _s =>
        if tag = "a" then ([], some "boom")
        else ([{ measurement := "ora", fields := [], tags := [("func", "b")] }],
              none))
      { all := "scott/tiger@10.0.0.5:1521/orcl/orcl1", user := "scott",
        passwd := "tiger", host := "10.0.0.5", port := "1521",
        service := "orcl", inst := "orcl1" }
      rfl rfl).1
  rw [h]
  rfl

end OraGo
